import Mathlib

/-!
Verification of the disktest core against its specification.

The Rust sources embedded here are:
- src/generator/chacha20.rs (GeneratorChaCha20)
- src/generator/sha512.rs (GeneratorSHA512)
- src/stream.rs (DtStreamWorker, DtStream)
- src/main.rs (Disktest::write_mode, Disktest::read_mode)

Machine integers are modelled as Nat with explicit reduction modulo 2^w.
Byte buffers are lists of Nat (each < 256).
-/

set_option maxRecDepth 100000

set_option maxHeartbeats 1000000

/-- Truncation of a natural number to 32 bits (u32 wrap-around). -/
def mask32 (x : Nat) : Nat := x % 4294967296

/-- Rust u32.rotate_left: the shift is taken modulo the bit width. -/
def rotl32 (x n : Nat) : Nat :=
  mask32 ((x <<< (n % 32)) ||| (x >>> (32 - n % 32)))

/-- Bitwise xor on 32-bit words. -/
def xor32 (a b : Nat) : Nat := a ^^^ b

/-- Wrapping addition on 32-bit words. -/
def add32 (a b : Nat) : Nat := mask32 (a + b)

/-- One step of the reference reduction used by the source tests:
`acc.rotate_left(i as u32) ^ (*x as u32)` for the enumerated byte (i, x). -/
def reduceStep (acc i b : Nat) : Nat := xor32 (rotl32 acc i) b

/-- Reduction fold starting at enumeration index i with accumulator acc. -/
def reduceFrom (i acc : Nat) : List Nat → Nat
  | [] => acc
  | b :: bs => reduceFrom (i + 1) (reduceStep acc i b) bs

/-- The reduce function of the source tests (chacha20.rs / sha512.rs):
fold over enumerated bytes (i, b) of acc.rotate_left(i).xor(b), acc = 0. -/
def reduce (bs : List Nat) : Nat := reduceFrom 0 0 bs

/-- Block-structured evaluation of the reduction, used to keep kernel
reduction chains shallow when evaluating it over long byte streams. -/
def reduceBlocksFrom (i acc : Nat) : List (List Nat) → Nat
  | [] => acc
  | blk :: blks => reduceBlocksFrom (i + blk.length) (reduceFrom i acc blk) blks

/-! ### ChaCha20 (models the external rand_chacha ChaCha20Rng used by
src/generator/chacha20.rs: RFC 8439 state with a 64-bit block counter in
words 12-13 and a zero 64-bit stream id in words 14-15; fill_bytes emits
consecutive little-endian-serialized keystream blocks). -/
structure ChaChaState where
  x0 : Nat
  x1 : Nat
  x2 : Nat
  x3 : Nat
  x4 : Nat
  x5 : Nat
  x6 : Nat
  x7 : Nat
  x8 : Nat
  x9 : Nat
  x10 : Nat
  x11 : Nat
  x12 : Nat
  x13 : Nat
  x14 : Nat
  x15 : Nat

/-- ChaCha quarter round on four 32-bit words. -/
def quarterRound (a b c d : Nat) : Nat × Nat × Nat × Nat :=
  let a := add32 a b
  let d := rotl32 (xor32 d a) 16
  let c := add32 c d
  let b := rotl32 (xor32 b c) 12
  let a := add32 a b
  let d := rotl32 (xor32 d a) 8
  let c := add32 c d
  let b := rotl32 (xor32 b c) 7
  (a, b, c, d)

/-- ChaCha double round: a column round followed by a diagonal round. -/
def doubleRound (s : ChaChaState) : ChaChaState :=
  let (a0, a4, a8, a12) := quarterRound s.x0 s.x4 s.x8 s.x12
  let (a1, a5, a9, a13) := quarterRound s.x1 s.x5 s.x9 s.x13
  let (a2, a6, a10, a14) := quarterRound s.x2 s.x6 s.x10 s.x14
  let (a3, a7, a11, a15) := quarterRound s.x3 s.x7 s.x11 s.x15
  let (b0, b5, b10, b15) := quarterRound a0 a5 a10 a15
  let (b1, b6, b11, b12) := quarterRound a1 a6 a11 a12
  let (b2, b7, b8, b13) := quarterRound a2 a7 a8 a13
  let (b3, b4, b9, b14) := quarterRound a3 a4 a9 a14
  ⟨b0, b1, b2, b3, b4, b5, b6, b7, b8, b9, b10, b11, b12, b13, b14, b15⟩

/-- Iterated double rounds (ChaCha20 uses 10 of them). -/
def chachaRounds : Nat → ChaChaState → ChaChaState
  | 0, s => s
  | n + 1, s => chachaRounds n (doubleRound s)

/-- Little-endian 32-bit word from four bytes. -/
def le32 (b0 b1 b2 b3 : Nat) : Nat := b0 + 256 * b1 + 65536 * b2 + 16777216 * b3

/-- Little-endian serialization of a 32-bit word into four bytes. -/
def wordBytes (w : Nat) : List Nat :=
  [w % 256, w / 256 % 256, w / 65536 % 256, w / 16777216 % 256]

/-- Word i of a 32-byte key buffer, little-endian. -/
def keyWord (k : List Nat) (i : Nat) : Nat :=
  le32 (k.getD (4 * i) 0) (k.getD (4 * i + 1) 0) (k.getD (4 * i + 2) 0) (k.getD (4 * i + 3) 0)

/-- Initial ChaCha20 state for a 32-byte key, 64-bit block counter ctr and
zero stream id. -/
def chachaInit (key : List Nat) (ctr : Nat) : ChaChaState :=
  ⟨1634760805, 857760878, 2036477234, 1797285236,
   keyWord key 0, keyWord key 1, keyWord key 2, keyWord key 3,
   keyWord key 4, keyWord key 5, keyWord key 6, keyWord key 7,
   mask32 ctr, mask32 (ctr / 4294967296), 0, 0⟩

/-- One 64-byte ChaCha20 keystream block for the given key and counter. -/
def chachaBlock (key : List Nat) (ctr : Nat) : List Nat :=
  let s0 := chachaInit key ctr
  let s := chachaRounds 10 s0
  wordBytes (add32 s.x0 s0.x0) ++ wordBytes (add32 s.x1 s0.x1) ++
  wordBytes (add32 s.x2 s0.x2) ++ wordBytes (add32 s.x3 s0.x3) ++
  wordBytes (add32 s.x4 s0.x4) ++ wordBytes (add32 s.x5 s0.x5) ++
  wordBytes (add32 s.x6 s0.x6) ++ wordBytes (add32 s.x7 s0.x7) ++
  wordBytes (add32 s.x8 s0.x8) ++ wordBytes (add32 s.x9 s0.x9) ++
  wordBytes (add32 s.x10 s0.x10) ++ wordBytes (add32 s.x11 s0.x11) ++
  wordBytes (add32 s.x12 s0.x12) ++ wordBytes (add32 s.x13 s0.x13) ++
  wordBytes (add32 s.x14 s0.x14) ++ wordBytes (add32 s.x15 s0.x15)

/-- Consecutive keystream blocks starting at counter ctr. -/
def chachaBlocksFrom (key : List Nat) (ctr : Nat) : Nat → List (List Nat)
  | 0 => []
  | n + 1 => chachaBlock key ctr :: chachaBlocksFrom key (ctr + 1) n

namespace GeneratorChaCha20

/-- Size of the output data (src/generator/chacha20.rs). -/
def OUTSIZE : Nat := 102400

/-- Chunk size factor of this generator (src/generator/chacha20.rs). -/
def CHUNKFACTOR : Nat := 64

/-- Writing src[0..len] over the front of dst, as copy_from_slice does. -/
def copyInto (dst src : List Nat) (len : Nat) : List Nat :=
  src.take len ++ dst.drop len

/-- Key derivation of GeneratorChaCha20::new: a zero-initialized 32-byte
buffer whose first min(32, seed.len()) bytes are copied from the seed. -/
def truncSeed (seed : List Nat) : List Nat :=
  copyInto (List.replicate 32 0) seed (min 32 seed.length)

/-- Generator state: the derived 32-byte key of the ChaCha20Rng and the
keystream block counter it has advanced to. -/
structure State where
  key : List Nat
  ctr : Nat

/-- GeneratorChaCha20::new (requires a non-empty seed in the source). -/
def new (seed : List Nat) : State := ⟨truncSeed seed, 0⟩

/-- Number of 64-byte keystream blocks consumed per next() call. -/
def BLOCKSPERNEXT : Nat := OUTSIZE / 64

/-- GeneratorChaCha20::next: fill the OUTSIZE buffer with the next
keystream bytes. -/
def next (g : State) : List Nat × State :=
  ((chachaBlocksFrom g.key g.ctr BLOCKSPERNEXT).flatten, ⟨g.key, g.ctr + BLOCKSPERNEXT⟩)

end GeneratorChaCha20

/-- Output of the k-th call (0-based) to next on a stateful generator. -/
def iterNext {σ : Type} (next : σ → List Nat × σ) : σ → Nat → List Nat
  | s, 0 => (next s).1
  | s, k + 1 => iterNext next (next s).2 k

/-! ### Evaluation layer for the ChaCha20 pinned vectors.

The definitions below are definitionally equal reformulations of the
embedding above, arranged so that the kernel can evaluate them on concrete
inputs without deep call-by-name towers: small definitions, Nat.rec-based
loops, and an accumulator that is forced to a literal at every step via
Nat.casesOn. Each reformulation is proved equal to the faithful
definition. -/

/-- Wrapping 32-bit add, kernel-primitive form of add32. -/
def addw (a b : Nat) : Nat := Nat.mod (Nat.add a b) 4294967296

/-- Kernel-primitive form of the quarter round building block a += b. -/
def qadd (a b : Nat) : Nat := Nat.mod (Nat.add a b) 4294967296

/-- Kernel-primitive form of d ^= a; d <<<= 16. -/
def xr16 (d a : Nat) : Nat :=
  let t := Nat.xor d a
  Nat.mod (Nat.lor (Nat.shiftLeft t 16) (Nat.shiftRight t 16)) 4294967296

/-- Kernel-primitive form of b ^= c; b <<<= 12. -/
def xr12 (b c : Nat) : Nat :=
  let t := Nat.xor b c
  Nat.mod (Nat.lor (Nat.shiftLeft t 12) (Nat.shiftRight t 20)) 4294967296

/-- Kernel-primitive form of d ^= a; d <<<= 8. -/
def xr8 (d a : Nat) : Nat :=
  let t := Nat.xor d a
  Nat.mod (Nat.lor (Nat.shiftLeft t 8) (Nat.shiftRight t 24)) 4294967296

/-- Kernel-primitive form of b ^= c; b <<<= 7. -/
def xr7 (b c : Nat) : Nat :=
  let t := Nat.xor b c
  Nat.mod (Nat.lor (Nat.shiftLeft t 7) (Nat.shiftRight t 25)) 4294967296

/-- Quarter round assembled from the kernel-primitive pieces. -/
def qrF (a b c d : Nat) : Nat × Nat × Nat × Nat :=
  let a1 := qadd a b
  let d1 := xr16 d a1
  let c1 := qadd c d1
  let b1 := xr12 b c1
  let a2 := qadd a1 b1
  let d2 := xr8 d1 a2
  let c2 := qadd c1 d2
  let b2 := xr7 b1 c2
  (a2, b2, c2, d2)

/-- Double round via qrF, destructuring by projections. -/
def dRp (s : ChaChaState) : ChaChaState :=
  let t0 := qrF s.x0 s.x4 s.x8 s.x12
  let t1 := qrF s.x1 s.x5 s.x9 s.x13
  let t2 := qrF s.x2 s.x6 s.x10 s.x14
  let t3 := qrF s.x3 s.x7 s.x11 s.x15
  let u0 := qrF t0.1 t1.2.1 t2.2.2.1 t3.2.2.2
  let u1 := qrF t1.1 t2.2.1 t3.2.2.1 t0.2.2.2
  let u2 := qrF t2.1 t3.2.1 t0.2.2.1 t1.2.2.2
  let u3 := qrF t3.1 t0.2.1 t1.2.2.1 t2.2.2.2
  ⟨u0.1, u1.1, u2.1, u3.1,
   u3.2.1, u0.2.1, u1.2.1, u2.2.1,
   u2.2.2.1, u3.2.2.1, u0.2.2.1, u1.2.2.1,
   u1.2.2.2, u2.2.2.2, u3.2.2.2, u0.2.2.2⟩

/-- Nat.rec form of the round iteration. -/
def chachaRoundsE (n : Nat) (s : ChaChaState) : ChaChaState :=
  Nat.rec (motive := fun _ => ChaChaState → ChaChaState)
    (fun s => s) (fun _ ih s => ih (dRp s)) n s

/-- Kernel-primitive form of reduceStep. -/
def byteStep (acc i b : Nat) : Nat :=
  Nat.xor
    (Nat.mod
      (Nat.lor (Nat.shiftLeft acc (Nat.mod i 32)) (Nat.shiftRight acc (32 - Nat.mod i 32)))
      4294967296)
    b

/-- Reduction of the four little-endian bytes of one 32-bit word, merged so
that no byte list is materialized during evaluation. -/
def wordRed (i acc w : Nat) : Nat :=
  byteStep
    (byteStep
      (byteStep (byteStep acc i (Nat.mod w 256)) (i + 1) (Nat.mod (Nat.div w 256) 256))
      (i + 1 + 1) (Nat.mod (Nat.div w 65536) 256))
    (i + 1 + 1 + 1) (Nat.mod (Nat.div w 16777216) 256)

/-- Reduction of one serialized 64-byte keystream block (final state s,
initial state s0), merged with the word additions and serialization. -/
def blockRed (i acc : Nat) (s s0 : ChaChaState) : Nat :=
  let i1 := i + 1 + 1 + 1 + 1
  let i2 := i1 + 1 + 1 + 1 + 1
  let i3 := i2 + 1 + 1 + 1 + 1
  let i4 := i3 + 1 + 1 + 1 + 1
  let i5 := i4 + 1 + 1 + 1 + 1
  let i6 := i5 + 1 + 1 + 1 + 1
  let i7 := i6 + 1 + 1 + 1 + 1
  let i8 := i7 + 1 + 1 + 1 + 1
  let i9 := i8 + 1 + 1 + 1 + 1
  let i10 := i9 + 1 + 1 + 1 + 1
  let i11 := i10 + 1 + 1 + 1 + 1
  let i12 := i11 + 1 + 1 + 1 + 1
  let i13 := i12 + 1 + 1 + 1 + 1
  let i14 := i13 + 1 + 1 + 1 + 1
  let i15 := i14 + 1 + 1 + 1 + 1
  let a0 := wordRed i acc (addw s.x0 s0.x0)
  let a1 := wordRed i1 a0 (addw s.x1 s0.x1)
  let a2 := wordRed i2 a1 (addw s.x2 s0.x2)
  let a3 := wordRed i3 a2 (addw s.x3 s0.x3)
  let a4 := wordRed i4 a3 (addw s.x4 s0.x4)
  let a5 := wordRed i5 a4 (addw s.x5 s0.x5)
  let a6 := wordRed i6 a5 (addw s.x6 s0.x6)
  let a7 := wordRed i7 a6 (addw s.x7 s0.x7)
  let a8 := wordRed i8 a7 (addw s.x8 s0.x8)
  let a9 := wordRed i9 a8 (addw s.x9 s0.x9)
  let a10 := wordRed i10 a9 (addw s.x10 s0.x10)
  let a11 := wordRed i11 a10 (addw s.x11 s0.x11)
  let a12 := wordRed i12 a11 (addw s.x12 s0.x12)
  let a13 := wordRed i13 a12 (addw s.x13 s0.x13)
  let a14 := wordRed i14 a13 (addw s.x14 s0.x14)
  wordRed i15 a14 (addw s.x15 s0.x15)

/-- Forced-accumulator evaluation loop over n consecutive keystream blocks:
counter c, reduction enumeration index i, accumulator acc. -/
def chachaLoopE (key : List Nat) (n c i acc : Nat) : Nat :=
  Nat.rec (motive := fun _ => Nat → Nat → Nat → Nat)
    (fun _ _ acc => acc)
    (fun _ ih c i acc =>
      Nat.casesOn (blockRed i acc (chachaRoundsE 10 (chachaInit key c)) (chachaInit key c))
        (ih (c + 1) (i + 64) 0) (fun a => ih (c + 1) (i + 64) (a + 1)))
    n c i acc

/-- The ChaCha20 key derived from seed bytes [1, 2, 3]. -/
def chachaTestKey : List Nat := GeneratorChaCha20.truncSeed [1, 2, 3]

/-! ### SHA-512 (models the external rust-crypto Sha512 digest used by
src/generator/sha512.rs), over byte lists, big-endian. -/

/-- Truncation of a natural number to 64 bits (u64 wrap-around). -/
def mask64 (x : Nat) : Nat := x % 18446744073709551616

/-- Bitwise xor on 64-bit words. -/
def xor64 (a b : Nat) : Nat := a ^^^ b

/-- Right rotation on 64-bit words. -/
def rotr64 (x n : Nat) : Nat := mask64 ((x >>> n) ||| (x <<< (64 - n)))

/-- SHA-512 Ch function. -/
def shaCh (x y z : Nat) : Nat :=
  xor64 (x &&& y) ((x ^^^ 18446744073709551615) &&& z)

/-- SHA-512 Maj function. -/
def shaMaj (x y z : Nat) : Nat :=
  xor64 (x &&& y) (xor64 (x &&& z) (y &&& z))

/-- SHA-512 big sigma 0. -/
def shaS0 (x : Nat) : Nat := xor64 (rotr64 x 28) (xor64 (rotr64 x 34) (rotr64 x 39))

/-- SHA-512 big sigma 1. -/
def shaS1 (x : Nat) : Nat := xor64 (rotr64 x 14) (xor64 (rotr64 x 18) (rotr64 x 41))

/-- SHA-512 small sigma 0. -/
def shas0 (x : Nat) : Nat := xor64 (rotr64 x 1) (xor64 (rotr64 x 8) (x >>> 7))

/-- SHA-512 small sigma 1. -/
def shas1 (x : Nat) : Nat := xor64 (rotr64 x 19) (xor64 (rotr64 x 61) (x >>> 6))

/-- SHA-512 round constants. -/
def shaK : List Nat :=
  [4794697086780616226, 8158064640168781261, 13096744586834688815, 16840607885511220156,
   4131703408338449720, 6480981068601479193, 10538285296894168987, 12329834152419229976,
   15566598209576043074, 1334009975649890238, 2608012711638119052, 6128411473006802146,
   8268148722764581231, 9286055187155687089, 11230858885718282805, 13951009754708518548,
   16472876342353939154, 17275323862435702243, 1135362057144423861, 2597628984639134821,
   3308224258029322869, 5365058923640841347, 6679025012923562964, 8573033837759648693,
   10970295158949994411, 12119686244451234320, 12683024718118986047, 13788192230050041572,
   14330467153632333762, 15395433587784984357, 489312712824947311, 1452737877330783856,
   2861767655752347644, 3322285676063803686, 5560940570517711597, 5996557281743188959,
   7280758554555802590, 8532644243296465576, 9350256976987008742, 10552545826968843579,
   11727347734174303076, 12113106623233404929, 14000437183269869457, 14369950271660146224,
   15101387698204529176, 15463397548674623760, 17586052441742319658, 1182934255886127544,
   1847814050463011016, 2177327727835720531, 2830643537854262169, 3796741975233480872,
   4115178125766777443, 5681478168544905931, 6601373596472566643, 7507060721942968483,
   8399075790359081724, 8693463985226723168, 9568029438360202098, 10144078919501101548,
   10430055236837252648, 11840083180663258601, 13761210420658862357, 14299343276471374635,
   14566680578165727644, 15097957966210449927, 16922976911328602910, 17689382322260857208,
   500013540394364858, 748580250866718886, 1242879168328830382, 1977374033974150939,
   2944078676154940804, 3659926193048069267, 4368137639120453308, 4836135668995329356,
   5532061633213252278, 6448918945643986474, 6902733635092675308, 7801388544844847127]

/-- SHA-512 initial hash values. -/
def shaH0 : List Nat :=
  [7640891576956012808, 13503953896175478587, 4354685564936845355, 11912009170470909681,
   5840696475078001361, 11170449401992604703, 2270897969802886507, 6620516959819538809]

/-- Big-endian 64-bit word from the 8 bytes at offset 8*i. -/
def beWordAt (bs : List Nat) (i : Nat) : Nat :=
  bs.getD (8 * i) 0 * 72057594037927936 + bs.getD (8 * i + 1) 0 * 281474976710656 +
  bs.getD (8 * i + 2) 0 * 1099511627776 + bs.getD (8 * i + 3) 0 * 4294967296 +
  bs.getD (8 * i + 4) 0 * 16777216 + bs.getD (8 * i + 5) 0 * 65536 +
  bs.getD (8 * i + 6) 0 * 256 + bs.getD (8 * i + 7) 0

/-- The 16 message words of a 128-byte block. -/
def parseBlockWords (bs : List Nat) : List Nat := (List.range 16).map (beWordAt bs)

/-- Message schedule extension, holding the schedule in reverse
(most recently produced word first). -/
def shaExtend : Nat → List Nat → List Nat
  | 0, w => w
  | n + 1, w =>
    shaExtend n
      (mask64 (shas1 (w.getD 1 0) + w.getD 6 0 + shas0 (w.getD 14 0) + w.getD 15 0) :: w)

structure ShaState where
  a : Nat
  b : Nat
  c : Nat
  d : Nat
  e : Nat
  f : Nat
  g : Nat
  h : Nat

/-- One SHA-512 compression round; kw is the pair (round constant, schedule word). -/
def shaRound (st : ShaState) (kw : Nat × Nat) : ShaState :=
  let t1 := mask64 (st.h + shaS1 st.e + shaCh st.e st.f st.g + kw.1 + kw.2)
  let t2 := mask64 (shaS0 st.a + shaMaj st.a st.b st.c)
  ⟨mask64 (t1 + t2), st.a, st.b, st.c, mask64 (st.d + t1), st.e, st.f, st.g⟩

/-- SHA-512 compression of one 128-byte block into the running hash. -/
def shaCompress (H : List Nat) (block : List Nat) : List Nat :=
  let w := (shaExtend 64 (parseBlockWords block).reverse).reverse
  let st0 : ShaState := ⟨H.getD 0 0, H.getD 1 0, H.getD 2 0, H.getD 3 0,
                         H.getD 4 0, H.getD 5 0, H.getD 6 0, H.getD 7 0⟩
  let st := (shaK.zip w).foldl shaRound st0
  [mask64 (H.getD 0 0 + st.a), mask64 (H.getD 1 0 + st.b),
   mask64 (H.getD 2 0 + st.c), mask64 (H.getD 3 0 + st.d),
   mask64 (H.getD 4 0 + st.e), mask64 (H.getD 5 0 + st.f),
   mask64 (H.getD 6 0 + st.g), mask64 (H.getD 7 0 + st.h)]

/-- Big-endian serialization of a 64-bit word into 8 bytes. -/
def be64Bytes (w : Nat) : List Nat :=
  [w / 72057594037927936 % 256, w / 281474976710656 % 256, w / 1099511627776 % 256,
   w / 4294967296 % 256, w / 16777216 % 256, w / 65536 % 256, w / 256 % 256, w % 256]

/-- SHA-512 padding: 0x80, zeros to 112 mod 128, then the 128-bit
big-endian bit length. -/
def sha512Pad (msg : List Nat) : List Nat :=
  let L := msg.length
  let zeros := (128 - (L + 17) % 128) % 128
  msg ++ [128] ++ List.replicate zeros 0 ++
    be64Bytes (8 * L / 18446744073709551616) ++ be64Bytes (8 * L % 18446744073709551616)

/-- Split a padded message into 128-byte blocks (fuel-driven). -/
def splitBlocks : Nat → List Nat → List (List Nat)
  | 0, _ => []
  | _, [] => []
  | fuel + 1, bs => bs.take 128 :: splitBlocks fuel (bs.drop 128)

/-- The SHA-512 digest of a byte list: 64 bytes. -/
def sha512 (msg : List Nat) : List Nat :=
  let padded := sha512Pad msg
  ((splitBlocks padded.length padded).foldl shaCompress shaH0).map be64Bytes |>.flatten

namespace GeneratorSHA512

/-- Size of the base SHA512 algorithm, in bytes (src/generator/sha512.rs). -/
def SIZE : Nat := 512 / 8

/-- Chunk size of previous hash to incorporate into the next hash. -/
def PREVSIZE : Nat := SIZE / 2

/-- Size of the output data. -/
def OUTSIZE : Nat := SIZE

/-- Chunk size factor of this generator. -/
def CHUNKFACTOR : Nat := 1024 * 10

/-- Little-endian serialization of a 64-bit word into 8 bytes. -/
def le64Bytes (w : Nat) : List Nat :=
  [w % 256, w / 256 % 256, w / 65536 % 256, w / 16777216 % 256,
   w / 4294967296 % 256, w / 1099511627776 % 256, w / 281474976710656 % 256,
   w / 72057594037927936 % 256]

/-- Modelled from the spec: generator/buffer.rs is not under src/. Per §4.1.2
the Buffer state is the user seed, a monotonic 64-bit little-endian counter,
and the previous digest prefix of PREVSIZE = 32 bytes (initially zero). The
concatenation order fed to the hash and the counter origin are fixed by the
pinned vectors of §8 (asserted by the sha512.rs tests, which are in src/):
the hash input is seed ‖ prev ‖ counter with the counter value starting at 0
for the first block. -/
structure State where
  seed : List Nat
  count : Nat
  prev : List Nat

/-- GeneratorSHA512::new. -/
def new (seed : List Nat) : State := ⟨seed, 0, List.replicate PREVSIZE 0⟩

/-- GeneratorSHA512::next: hash the buffer, keep the digest prefix for the
next iteration, advance the counter, return the digest. -/
def next (g : State) : List Nat × State :=
  let digest := sha512 (g.seed ++ g.prev ++ le64Bytes g.count)
  (digest.take OUTSIZE, ⟨g.seed, g.count + 1, digest.take PREVSIZE⟩)

end GeneratorSHA512

namespace Hasher

/-- Modelled from the spec: hasher.rs is not under src/. Per §4.2 the Hasher
appends the 16-bit worker serial, little-endian, to the user seed bytes and
drives one generator with the combined seed. In this source tree the Hasher
wraps the SHA-512 generator: stream.rs sizes CHUNKSIZE from Hasher::OUTSIZE
with the SHA-512 CHUNKFACTOR, and the stream.rs test vector for seed [1,2,3],
serial 0 matches the SHA-512 chain on seed [1,2,3,0,0]. -/
def OUTSIZE : Nat := GeneratorSHA512.OUTSIZE

/-- Hasher::new: combine seed and serial, then instantiate the generator. -/
def new (seed : List Nat) (serial : Nat) : GeneratorSHA512.State :=
  GeneratorSHA512.new (seed ++ [serial % 256, serial / 256 % 256])

/-- Hasher::next forwards to the wrapped generator. -/
def next (g : GeneratorSHA512.State) : List Nat × GeneratorSHA512.State :=
  GeneratorSHA512.next g

end Hasher

/-- LEVEL_THRES from src/stream.rs. -/
def DtStreamWorker.LEVEL_THRES : Int := 8

structure WorkerSys where
  abort : Bool
  channelOpen : Bool
  level : Int
  queue : List Nat
  received : List Nat
  index : Nat
  pending : Bool
  sent : Nat

/-- Worker-side state right after DtStream::start: fresh channel, level 0,
index 0. -/
def WorkerSys.init : WorkerSys := ⟨false, true, 0, [], [], 0, false, 0⟩

/-- One interleaved step of the worker loop (src/stream.rs lines 61-81),
of DtStream::get_chunk (lines 143-159), or of the stream dropping its
receiver.
- produceSend: loop body when !abort, level < LEVEL_THRES: build the chunk
  carrying the current index, increment the local index, send it; the level
  increment is still pending.
- produceFail: same body when the receiving end is gone: tx.send returns
  Err, the `if let Ok` arm is skipped (no level increment) and the loop
  continues; the chunk is dropped.
- incrLevel: the fetch_add(1) after a successful send.
- sleepStep: the 10 ms sleep branch when level >= LEVEL_THRES.
- recv: get_chunk on an active stream: try_recv returns the oldest queued
  chunk and the level is decremented.
- closeChannel: the receiver is dropped; queued chunks are discarded and no
  further receive can happen.
- setAbort: stop() stores true into the abort flag. -/
inductive WStep : WorkerSys → WorkerSys → Prop where
  | produceSend : ∀ s, s.abort = false → s.pending = false →
      s.level < DtStreamWorker.LEVEL_THRES → s.channelOpen = true →
      WStep s { s with index := s.index + 1, sent := s.sent + 1,
                       queue := s.queue ++ [s.index], pending := true }
  | produceFail : ∀ s, s.abort = false → s.pending = false →
      s.level < DtStreamWorker.LEVEL_THRES → s.channelOpen = false →
      WStep s { s with index := s.index + 1 }
  | incrLevel : ∀ s, s.pending = true →
      WStep s { s with level := s.level + 1, pending := false }
  | sleepStep : ∀ s, s.abort = false → s.pending = false →
      DtStreamWorker.LEVEL_THRES ≤ s.level → WStep s s
  | recv : ∀ s c rest, s.channelOpen = true → s.queue = c :: rest →
      WStep s { s with queue := rest, received := s.received ++ [c],
                       level := s.level - 1 }
  | closeChannel : ∀ s, s.channelOpen = true →
      WStep s { s with channelOpen := false, queue := [] }
  | setAbort : ∀ s, WStep s { s with abort := true }

/-- States reachable from a freshly started stream. -/
def WorkerSys.Reachable (s : WorkerSys) : Prop :=
  Relation.ReflTransGen WStep WorkerSys.init s

/-- The inductive invariant of the worker/stream system. -/
def WorkerSys.Inv (s : WorkerSys) : Prop :=
  s.level = (s.sent : Int) - s.received.length - (if s.pending then 1 else 0) ∧
  s.received = List.range s.received.length ∧
  (s.channelOpen = true → s.queue = List.range' s.received.length s.queue.length) ∧
  (s.channelOpen = true → s.queue.length + s.received.length = s.sent) ∧
  (s.channelOpen = false → s.queue = []) ∧
  (s.pending = true → s.level ≤ 7) ∧
  (-1 ≤ s.level) ∧ (s.level ≤ 8) ∧
  (s.channelOpen = true → s.index = s.sent)

/-- State reached after one produceSend from init. -/
def WorkerSys.afterSend : WorkerSys := ⟨false, true, 0, [0], [], 1, true, 1⟩

/-- State reached from afterSend by a consumer receive that runs before the
worker's level increment: the level is observed at -1. -/
def WorkerSys.negLevel : WorkerSys := ⟨false, true, -1, [], [0], 1, true, 1⟩

/-- State with the channel closed after two chunk productions that could not
be sent. -/
def WorkerSys.closedBusy : WorkerSys := ⟨false, false, 0, [], [], 2, false, 0⟩

/-- Handle-side state of a DtStream: whether the worker join handle is
present, the abort flag, the receiver with its queued chunk indices (none
before the first start), and the level counter. -/
structure DtStreamState where
  threadJoin : Bool
  abortThread : Bool
  rx : Option (List Nat)
  level : Int

namespace DtStreamState

/-- DtStream::new: no worker thread, no receiver, level 0. -/
def new : DtStreamState := ⟨false, false, none, 0⟩

/-- DtStream::is_active: a join handle is present and abort is not set. -/
def is_active (s : DtStreamState) : Bool := s.threadJoin && !s.abortThread

/-- DtStream::stop: store true into the abort flag, join and drop the
worker handle, then store false into the abort flag. The receiver field and
whatever chunks it still buffers are not touched. -/
def stop (s : DtStreamState) : DtStreamState :=
  { s with abortThread := false, threadJoin := false }

/-- DtStream::get_chunk: only when is_active, try_recv on the receiver;
on success the level is decremented. -/
def get_chunk (s : DtStreamState) : Option Nat × DtStreamState :=
  if s.is_active then
    match s.rx with
    | some (c :: rest) => (some c, { s with rx := some rest, level := s.level - 1 })
    | some [] => (none, s)
    | none => (none, s)
  else (none, s)

end DtStreamState

/-! ### Chunk sizing (src/stream.rs line 94 and lines 70-73). -/

namespace DtStream

/-- The CHUNKSIZE formula of stream.rs, `Hasher::OUTSIZE * 1024 * 10`,
stated over the output size of the wrapped generator. -/
def CHUNKSIZEof (outsize : Nat) : Nat := outsize * (1024 * 10)

/-- The CHUNKSIZE constant of the source, for the Hasher in this tree. -/
def CHUNKSIZE : Nat := CHUNKSIZEof Hasher.OUTSIZE

end DtStream

/-- The worker's chunk fill loop (stream.rs lines 70-73): invoke next n
times and concatenate the outputs. -/
def fillChunk {σ : Type} (next : σ → List Nat × σ) : Nat → σ → List Nat × σ
  | 0, s => ([], s)
  | n + 1, s =>
    let r1 := next s
    let r2 := fillChunk next n r1.2
    (r1.1 ++ r2.1, r2.2)

/-- The chunk a worker builds: `CHUNKSIZE / Hasher::OUTSIZE` invocations of
hasher.next(), concatenated (stream.rs line 70). -/
def workerChunk {σ : Type} (next : σ → List Nat × σ) (outsize : Nat) (s : σ) :
    List Nat × σ :=
  fillChunk next (DtStream.CHUNKSIZEof outsize / outsize) s

/-! ### Write driver (src/main.rs, Disktest::write_mode). -/
inductive WriteErrorKind where
  | noSpace : WriteErrorKind
  | other : WriteErrorKind

inductive WriteResult where
  | ok : WriteResult
  | err : WriteErrorKind → WriteResult

/-- Outcome of write_mode: success carries the bytes_written count that
write_mode_finalize reports; syncFailure is the Err from a failing
sync_all. -/
inductive WriteOutcome where
  | success : Nat → WriteOutcome
  | syncFailure : WriteOutcome

namespace Disktest

/-- WRITEBUFLEN from main.rs: Hasher::OUTSIZE * 1024 * 10. -/
def WRITEBUFLEN : Nat := Hasher.OUTSIZE * (1024 * 10)

/-- The write_mode loop (main.rs lines 62-103). The device's successive
write_all results are given by dev, indexed by write ordinal; the sync_all
result by syncOk. Buffer contents from the hasher do not influence control
flow and are not tracked. On any write error the code prints it, finalizes
(sync, report bytes_written) and breaks out with Ok; the error kind is
never inspected (the TODO comment at main.rs line 85 records the intended
ENOSPC discrimination as unimplemented). write_all on an empty slice (only
possible when bytes_left = 0, i.e. max_bytes = 0) performs no device
write. -/
def writeModeGo (dev : Nat → WriteResult) (syncOk : Bool)
    (wIdx bytesWritten bytesLeft : Nat) : WriteOutcome :=
  if bytesLeft = 0 then
    if syncOk then .success bytesWritten else .syncFailure
  else
    let writeLen := min WRITEBUFLEN bytesLeft
    match dev wIdx with
    | .err _ => if syncOk then .success bytesWritten else .syncFailure
    | .ok =>
      if h : bytesLeft - writeLen = 0 then
        if syncOk then .success (bytesWritten + writeLen) else .syncFailure
      else
        writeModeGo dev syncOk (wIdx + 1) (bytesWritten + writeLen) (bytesLeft - writeLen)
termination_by bytesLeft
decreasing_by
  have h1 : 0 < min WRITEBUFLEN bytesLeft := by
    simp only [WRITEBUFLEN, Hasher.OUTSIZE, GeneratorSHA512.OUTSIZE, GeneratorSHA512.SIZE]
    omega
  omega

/-- Disktest::write_mode entry: loop from zero counters. -/
def write_mode (dev : Nat → WriteResult) (syncOk : Bool) (maxBytes : Nat) : WriteOutcome :=
  writeModeGo dev syncOk 0 0 maxBytes

end Disktest

/-- First index at which two byte lists differ, comparing up to the shorter
length; mirrors the scan order of the comparison loops of read_mode. -/
def firstDiff : List Nat → List Nat → Option Nat
  | a :: as, b :: bs => if a = b then (firstDiff as bs).map (· + 1) else some 0
  | _, _ => none

/-- Byte p of the infinite regenerated stream of a block generator. -/
def streamByte (outsize : Nat) (blocks : Nat → List Nat) (p : Nat) : Nat :=
  (blocks (p / outsize)).getD (p % outsize) 0

inductive ReadOutcome where
  | success (bytesRead : Nat)
  | mismatch (offset : Nat)
deriving DecidableEq

namespace Disktest

def READBUFLENof (outsize : Nat) : Nat := outsize * (1024 * 10)

def readModeGo (outsize : Nat) (blocks : Nat → List Nat) (D : List Nat) :
    Nat → Nat → Nat → Nat → Nat → Nat → List Nat → Option ReadOutcome
  | 0, _, _, _, _, _, _ => none
  | fuel + 1, streamPos, bytesRead, bytesLeft, readLen, readCount, buffer =>
    let n := min (readLen - readCount) (D.length - (bytesRead + readCount))
    let buffer2 := buffer ++ (D.drop (bytesRead + readCount)).take n
    let readCount2 := readCount + n
    if readCount2 = readLen ∨ (0 < readCount2 ∧ n = 0) then
      let nblocks := (readCount2 + outsize - 1) / outsize
      match firstDiff buffer2 (List.map blocks (List.range' streamPos nblocks)).flatten with
      | some p => some (ReadOutcome.mismatch (bytesRead + p))
      | none =>
        if bytesLeft - readCount2 = 0 then some (ReadOutcome.success (bytesRead + readCount2))
        else if n = 0 then some (ReadOutcome.success (bytesRead + readCount2))
        else readModeGo outsize blocks D fuel (streamPos + nblocks) (bytesRead + readCount2)
          (bytesLeft - readCount2) (min (READBUFLENof outsize) (bytesLeft - readCount2)) 0 []
    else
      if n = 0 then some (ReadOutcome.success bytesRead)
      else readModeGo outsize blocks D fuel streamPos bytesRead bytesLeft readLen readCount2 buffer2

def read_mode (outsize : Nat) (blocks : Nat → List Nat) (D : List Nat) (maxBytes : Nat) :
    Option ReadOutcome :=
  readModeGo outsize blocks D (D.length + 2) 0 0 maxBytes (min (READBUFLENof outsize) maxBytes) 0 []

def readModeSpec (outsize : Nat) (blocks : Nat → List Nat) (D : List Nat) (maxBytes : Nat) :
    ReadOutcome :=
  match firstDiff (D.take (min maxBytes D.length))
      (List.map (streamByte outsize blocks) (List.range (min maxBytes D.length))) with
  | some p => ReadOutcome.mismatch p
  | none => ReadOutcome.success (min maxBytes D.length)

end Disktest

theorem reduceFrom_append (xs ys : List Nat) (i acc : Nat) :
    reduceFrom i acc (xs ++ ys) = reduceFrom (i + xs.length) (reduceFrom i acc xs) ys := by
  induction xs generalizing i acc with
  | nil => simp [reduceFrom]
  | cons x xs ih =>
    show reduceFrom (i + 1) (reduceStep acc i x) (xs ++ ys) =
      reduceFrom (i + (xs.length + 1)) (reduceFrom (i + 1) (reduceStep acc i x) xs) ys
    rw [ih]
    congr 1
    omega

theorem reduceFrom_flatten (L : List (List Nat)) (i acc : Nat) :
    reduceFrom i acc L.flatten = reduceBlocksFrom i acc L := by
  induction L generalizing i acc with
  | nil => simp [reduceBlocksFrom, reduceFrom]
  | cons blk blks ih =>
    simp only [List.flatten_cons, reduceBlocksFrom, reduceFrom_append, ih]

theorem reduce_flatten (L : List (List Nat)) :
    reduce L.flatten = reduceBlocksFrom 0 0 L :=
  reduceFrom_flatten L 0 0

theorem addw_eq : addw = add32 := rfl

theorem qrF_eq : qrF = quarterRound := rfl

theorem dRp_eq : dRp = doubleRound := rfl

theorem chachaRoundsE_eq (n : Nat) : chachaRoundsE n = chachaRounds n := by
  induction n with
  | zero => rfl
  | succ n ih =>
    funext s
    show chachaRoundsE n (dRp s) = chachaRounds n (doubleRound s)
    rw [ih, dRp_eq]

theorem byteStep_eq : byteStep = reduceStep := rfl

theorem reduceFrom_wordBytes (w : Nat) (rest : List Nat) (i acc : Nat) :
    reduceFrom i acc (wordBytes w ++ rest) =
      reduceFrom (i + 1 + 1 + 1 + 1) (wordRed i acc w) rest := rfl

theorem reduceFrom_wordBytes_nil (w : Nat) (i acc : Nat) :
    reduceFrom i acc (wordBytes w) = wordRed i acc w := rfl

theorem reduceFrom_chachaBlock (key : List Nat) (c i acc : Nat) :
    reduceFrom i acc (chachaBlock key c) =
      blockRed i acc (chachaRoundsE 10 (chachaInit key c)) (chachaInit key c) := by
  rw [chachaRoundsE_eq]
  simp only [chachaBlock, blockRed, List.append_assoc]
  rw [reduceFrom_wordBytes, reduceFrom_wordBytes, reduceFrom_wordBytes, reduceFrom_wordBytes,
    reduceFrom_wordBytes, reduceFrom_wordBytes, reduceFrom_wordBytes, reduceFrom_wordBytes,
    reduceFrom_wordBytes, reduceFrom_wordBytes, reduceFrom_wordBytes, reduceFrom_wordBytes,
    reduceFrom_wordBytes, reduceFrom_wordBytes, reduceFrom_wordBytes, reduceFrom_wordBytes_nil]
  rfl

theorem chachaBlock_length (key : List Nat) (ctr : Nat) :
    (chachaBlock key ctr).length = 64 := by
  simp [chachaBlock, wordBytes]

theorem chachaBlocksFrom_length_mem (key : List Nat) (n ctr : Nat) :
    ∀ b ∈ chachaBlocksFrom key ctr n, b.length = 64 := by
  induction n generalizing ctr with
  | zero => intro b hb; cases hb
  | succ n ih =>
    intro b hb
    rcases List.mem_cons.mp hb with h | h
    · rw [h]; exact chachaBlock_length key ctr
    · exact ih (ctr + 1) b h

theorem chachaBlocksFrom_append (key : List Nat) (m n ctr : Nat) :
    chachaBlocksFrom key ctr (m + n) =
      chachaBlocksFrom key ctr m ++ chachaBlocksFrom key (ctr + m) n := by
  induction m generalizing ctr with
  | zero => simp [chachaBlocksFrom]
  | succ m ih =>
    have h1 : m + 1 + n = (m + n) + 1 := by omega
    have h2 : ctr + 1 + m = ctr + (m + 1) := by omega
    rw [h1]
    show chachaBlock key ctr :: chachaBlocksFrom key (ctr + 1) (m + n) =
      chachaBlock key ctr ::
        (chachaBlocksFrom key (ctr + 1) m ++ chachaBlocksFrom key (ctr + (m + 1)) n)
    rw [ih, h2]

theorem reduceBlocksFrom_append64 (L1 L2 : List (List Nat)) (i acc : Nat)
    (hlen : ∀ b ∈ L1, b.length = 64) :
    reduceBlocksFrom i acc (L1 ++ L2) =
      reduceBlocksFrom (i + 64 * L1.length) (reduceBlocksFrom i acc L1) L2 := by
  induction L1 generalizing i acc with
  | nil => simp [reduceBlocksFrom]
  | cons blk blks ih =>
    have hb : blk.length = 64 := hlen blk (List.mem_cons_self blk blks)
    have hrest : ∀ b ∈ blks, b.length = 64 :=
      fun b hb2 => hlen b (List.mem_cons_of_mem blk hb2)
    show reduceBlocksFrom (i + blk.length) (reduceFrom i acc blk) (blks ++ L2) =
      reduceBlocksFrom (i + 64 * (blks.length + 1))
        (reduceBlocksFrom (i + blk.length) (reduceFrom i acc blk) blks) L2
    rw [ih _ _ hrest, hb]
    have h3 : i + 64 + 64 * blks.length = i + 64 * (blks.length + 1) := by ring
    rw [h3]

theorem chachaBlocksFrom_length (key : List Nat) (n ctr : Nat) :
    (chachaBlocksFrom key ctr n).length = n := by
  induction n generalizing ctr with
  | zero => rfl
  | succ n ih =>
    show (chachaBlock key ctr :: chachaBlocksFrom key (ctr + 1) n).length = n + 1
    rw [List.length_cons, ih]

theorem chachaLoopE_eq (key : List Nat) (n c i acc : Nat) :
    chachaLoopE key n c i acc = reduceBlocksFrom i acc (chachaBlocksFrom key c n) := by
  induction n generalizing c i acc with
  | zero => rfl
  | succ n ih =>
    show (Nat.casesOn (blockRed i acc (chachaRoundsE 10 (chachaInit key c)) (chachaInit key c))
      (chachaLoopE key n (c + 1) (i + 64) 0)
      (fun a => chachaLoopE key n (c + 1) (i + 64) (a + 1)) : Nat)
      = reduceBlocksFrom (i + (chachaBlock key c).length) (reduceFrom i acc (chachaBlock key c))
          (chachaBlocksFrom key (c + 1) n)
    rw [← reduceFrom_chachaBlock, chachaBlock_length]
    cases hv : reduceFrom i acc (chachaBlock key c) with
    | zero => exact ih (c + 1) (i + 64) 0
    | succ a => exact ih (c + 1) (i + 64) (a + 1)

theorem chachaSegStep (key : List Nat) (c i acc n : Nat) :
    reduceBlocksFrom i acc (chachaBlocksFrom key c (400 + n)) =
      reduceBlocksFrom (i + 25600) (chachaLoopE key 400 c i acc)
        (chachaBlocksFrom key (c + 400) n) := by
  rw [chachaBlocksFrom_append key 400 n c,
    reduceBlocksFrom_append64 _ _ _ _ (chachaBlocksFrom_length_mem key 400 c),
    chachaBlocksFrom_length key 400 c, ← chachaLoopE_eq key 400 c i acc,
    show (64 * 400 : Nat) = 25600 from by norm_num]

theorem chachaRed1600 (key : List Nat) (c : Nat) :
    reduceBlocksFrom 0 0 (chachaBlocksFrom key c 1600) =
      chachaLoopE key 400 (c + 1200) 76800
        (chachaLoopE key 400 (c + 800) 51200
          (chachaLoopE key 400 (c + 400) 25600
            (chachaLoopE key 400 c 0 0))) := by
  have h1 := chachaSegStep key c 0 0 1200
  rw [show (400 + 1200 : Nat) = 1600 from by norm_num,
    show (0 + 25600 : Nat) = 25600 from by norm_num] at h1
  have h2 := chachaSegStep key (c + 400) 25600 (chachaLoopE key 400 c 0 0) 800
  rw [show (400 + 800 : Nat) = 1200 from by norm_num,
    show (25600 + 25600 : Nat) = 51200 from by norm_num,
    show c + 400 + 400 = c + 800 from by omega] at h2
  have h3 := chachaSegStep key (c + 800) 51200
    (chachaLoopE key 400 (c + 400) 25600 (chachaLoopE key 400 c 0 0)) 400
  rw [show (400 + 400 : Nat) = 800 from by norm_num,
    show (51200 + 25600 : Nat) = 76800 from by norm_num,
    show c + 800 + 400 = c + 1200 from by omega] at h3
  have h4 := (chachaLoopE_eq key 400 (c + 1200) 76800
    (chachaLoopE key 400 (c + 800) 51200
      (chachaLoopE key 400 (c + 400) 25600 (chachaLoopE key 400 c 0 0)))).symm
  exact ((h1.trans h2).trans h3).trans h4

theorem chachaSeg00 : chachaLoopE chachaTestKey 400 0 0 0 = 2219368085 := by decide!

theorem chachaSeg01 : chachaLoopE chachaTestKey 400 400 25600 2219368085 = 1441610765 := by decide!

theorem chachaSeg02 : chachaLoopE chachaTestKey 400 800 51200 1441610765 = 620623043 := by decide!

theorem chachaSeg03 : chachaLoopE chachaTestKey 400 1200 76800 620623043 = 704022184 := by decide!

theorem chachaSeg10 : chachaLoopE chachaTestKey 400 1600 0 0 = 2952278357 := by decide!

theorem chachaSeg11 : chachaLoopE chachaTestKey 400 2000 25600 2952278357 = 2539342841 := by decide!

theorem chachaSeg12 : chachaLoopE chachaTestKey 400 2400 51200 2539342841 = 2309544031 := by decide!

theorem chachaSeg13 : chachaLoopE chachaTestKey 400 2800 76800 2309544031 = 1786387739 := by decide!

theorem chachaSeg20 : chachaLoopE chachaTestKey 400 3200 0 0 = 2827804082 := by decide!

theorem chachaSeg21 : chachaLoopE chachaTestKey 400 3600 25600 2827804082 = 1019388515 := by decide!

theorem chachaSeg22 : chachaLoopE chachaTestKey 400 4000 51200 1019388515 = 3640042624 := by decide!

theorem chachaSeg23 : chachaLoopE chachaTestKey 400 4400 76800 3640042624 = 3733544090 := by decide!

theorem chachaSeg30 : chachaLoopE chachaTestKey 400 4800 0 0 = 4286617583 := by decide!

theorem chachaSeg31 : chachaLoopE chachaTestKey 400 5200 25600 4286617583 = 687798178 := by decide!

theorem chachaSeg32 : chachaLoopE chachaTestKey 400 5600 51200 687798178 = 4091059802 := by decide!

theorem chachaSeg33 : chachaLoopE chachaTestKey 400 6000 76800 4091059802 = 3339470250 := by decide!

/-- Claim C2: with reduce(bytes) the fold over enumerated bytes (i, b) of
acc.rotate_left(i mod 32) XOR b from acc = 0, the first four next() blocks
of GeneratorChaCha20 seeded with bytes [1,2,3] reduce to 704022184,
1786387739, 3733544090, 3339470250, and the first four next() blocks of
GeneratorSHA512 seeded with bytes [1,2,3] reduce to 2314945247, 1602996934,
3995525905, 2890628318. -/
theorem C2_pinned_generator_vectors :
    (reduce (iterNext GeneratorChaCha20.next (GeneratorChaCha20.new [1, 2, 3]) 0) = 704022184 ∧
     reduce (iterNext GeneratorChaCha20.next (GeneratorChaCha20.new [1, 2, 3]) 1) = 1786387739 ∧
     reduce (iterNext GeneratorChaCha20.next (GeneratorChaCha20.new [1, 2, 3]) 2) = 3733544090 ∧
     reduce (iterNext GeneratorChaCha20.next (GeneratorChaCha20.new [1, 2, 3]) 3) = 3339470250) ∧
    (reduce (iterNext GeneratorSHA512.next (GeneratorSHA512.new [1, 2, 3]) 0) = 2314945247 ∧
     reduce (iterNext GeneratorSHA512.next (GeneratorSHA512.new [1, 2, 3]) 1) = 1602996934 ∧
     reduce (iterNext GeneratorSHA512.next (GeneratorSHA512.new [1, 2, 3]) 2) = 3995525905 ∧
     reduce (iterNext GeneratorSHA512.next (GeneratorSHA512.new [1, 2, 3]) 3) = 2890628318) := by
  refine ⟨⟨?_, ?_, ?_, ?_⟩, by decide!, by decide!, by decide!, by decide!⟩
  · have e : iterNext GeneratorChaCha20.next (GeneratorChaCha20.new [1, 2, 3]) 0
        = (chachaBlocksFrom chachaTestKey 0 1600).flatten := rfl
    rw [e, reduce_flatten, chachaRed1600]
    rw [show (0 + 400 : Nat) = 400 from by norm_num,
      show (0 + 800 : Nat) = 800 from by norm_num,
      show (0 + 1200 : Nat) = 1200 from by norm_num]
    rw [chachaSeg00, chachaSeg01, chachaSeg02, chachaSeg03]
  · have e : iterNext GeneratorChaCha20.next (GeneratorChaCha20.new [1, 2, 3]) 1
        = (chachaBlocksFrom chachaTestKey 1600 1600).flatten := rfl
    rw [e, reduce_flatten, chachaRed1600]
    rw [show (1600 + 400 : Nat) = 2000 from by norm_num,
      show (1600 + 800 : Nat) = 2400 from by norm_num,
      show (1600 + 1200 : Nat) = 2800 from by norm_num]
    rw [chachaSeg10, chachaSeg11, chachaSeg12, chachaSeg13]
  · have e : iterNext GeneratorChaCha20.next (GeneratorChaCha20.new [1, 2, 3]) 2
        = (chachaBlocksFrom chachaTestKey 3200 1600).flatten := rfl
    rw [e, reduce_flatten, chachaRed1600]
    rw [show (3200 + 400 : Nat) = 3600 from by norm_num,
      show (3200 + 800 : Nat) = 4000 from by norm_num,
      show (3200 + 1200 : Nat) = 4400 from by norm_num]
    rw [chachaSeg20, chachaSeg21, chachaSeg22, chachaSeg23]
  · have e : iterNext GeneratorChaCha20.next (GeneratorChaCha20.new [1, 2, 3]) 3
        = (chachaBlocksFrom chachaTestKey 4800 1600).flatten := rfl
    rw [e, reduce_flatten, chachaRed1600]
    rw [show (4800 + 400 : Nat) = 5200 from by norm_num,
      show (4800 + 800 : Nat) = 5600 from by norm_num,
      show (4800 + 1200 : Nat) = 6000 from by norm_num]
    rw [chachaSeg30, chachaSeg31, chachaSeg32, chachaSeg33]


/-! ### Stream model (src/stream.rs).

DtStreamWorker::worker and DtStream::get_chunk interact through two shared
atomics (abort flag, level counter) and an mpsc channel. The interleaved
execution is modelled as a small-step transition system. A chunk is
represented by its index. The `pending` flag marks the worker sitting
between a successful channel send and its subsequent level fetch_add: the
two are separate atomic operations in the source, so a consumer step can
run in between. -/

theorem WorkerSys.inv_init : WorkerSys.Inv WorkerSys.init := by
  refine ⟨by decide, by decide, ?_, by decide, by decide, by decide, by decide, by decide, by decide⟩
  intro
  rfl

theorem WorkerSys.inv_step {s s2 : WorkerSys} (hst : WStep s s2) (hi : WorkerSys.Inv s) :
    WorkerSys.Inv s2 := by
  obtain ⟨hl, hr, hq, hc, hcl, hp, hlo, hhi, hidx⟩ := hi
  cases hst with
  | produceSend ha hpe hlv ho =>
    have hql := hq ho
    have hcc := hc ho
    have hii := hidx ho
    have hlv8 : s.level < 8 := by simpa [DtStreamWorker.LEVEL_THRES] using hlv
    simp only [hpe, Bool.false_eq_true, if_false] at hl
    refine ⟨?_, hr, ?_, ?_, ?_, ?_, ?_, ?_, ?_⟩
    · simp only [if_true]
      push_cast
      omega
    · intro
      have hix : s.index = s.received.length + s.queue.length := by omega
      show s.queue ++ [s.index]
        = List.range' s.received.length (s.queue ++ [s.index]).length
      rw [List.length_append, List.length_singleton, List.range'_1_concat, ← hql, hix]
    · intro
      show (s.queue ++ [s.index]).length + s.received.length = s.sent + 1
      rw [List.length_append, List.length_singleton]
      omega
    · intro hcf
      rw [hcf] at ho
      cases ho
    · intro
      show s.level ≤ 7
      omega
    · show (-1 : Int) ≤ s.level
      omega
    · show s.level ≤ 8
      omega
    · intro
      show s.index + 1 = s.sent + 1
      omega
  | produceFail ha hpe hlv ho =>
    refine ⟨hl, hr, ?_, ?_, hcl, hp, hlo, hhi, ?_⟩ <;>
      intro hoo <;> rw [hoo] at ho <;> cases ho
  | incrLevel hpe =>
    have hle7 := hp hpe
    simp only [hpe, eq_self_iff_true, if_true] at hl
    refine ⟨?_, hr, hq, hc, hcl, ?_, ?_, ?_, hidx⟩
    · simp only [Bool.false_eq_true, if_false]
      omega
    · intro h
      cases h
    · show (-1 : Int) ≤ s.level + 1
      omega
    · show s.level + 1 ≤ 8
      omega
  | sleepStep ha hpe hlv =>
    exact ⟨hl, hr, hq, hc, hcl, hp, hlo, hhi, hidx⟩
  | recv c rest ho hqe =>
    have hql := hq ho
    have hsent := hc ho
    rw [hqe] at hql hsent
    simp only [List.length_cons] at hql hsent
    rw [List.range'_succ] at hql
    have hc0 : c = s.received.length := (List.cons_eq_cons.mp hql).1
    have hrest : rest = List.range' (s.received.length + 1) rest.length :=
      (List.cons_eq_cons.mp hql).2
    refine ⟨?_, ?_, ?_, ?_, ?_, ?_, ?_, ?_, ?_⟩
    · show s.level - 1
        = (s.sent : Int) - (s.received ++ [c]).length - (if s.pending then 1 else 0)
      rw [List.length_append, List.length_singleton]
      cases hpv : s.pending <;>
        simp only [hpv, Bool.false_eq_true, eq_self_iff_true, if_false, if_true] at hl ⊢ <;>
        push_cast <;> omega
    · show s.received ++ [c] = List.range (s.received ++ [c]).length
      rw [List.length_append, List.length_singleton, List.range_succ, ← hr, hc0]
    · intro
      show rest = List.range' (s.received ++ [c]).length rest.length
      rw [List.length_append, List.length_singleton]
      exact hrest
    · intro
      show rest.length + (s.received ++ [c]).length = s.sent
      rw [List.length_append, List.length_singleton]
      omega
    · intro hcf
      rw [hcf] at ho
      cases ho
    · intro hpe
      have := hp hpe
      show s.level - 1 ≤ 7
      omega
    · show (-1 : Int) ≤ s.level - 1
      cases hpv : s.pending <;>
        simp only [hpv, Bool.false_eq_true, eq_self_iff_true, if_false, if_true] at hl <;>
        omega
    · show s.level - 1 ≤ 8
      omega
    · intro
      exact hidx ho
  | closeChannel ho =>
    refine ⟨hl, hr, ?_, ?_, ?_, hp, hlo, hhi, ?_⟩
    · intro h
      cases h
    · intro h
      cases h
    · intro
      rfl
    · intro h
      cases h
  | setAbort =>
    exact ⟨hl, hr, hq, hc, hcl, hp, hlo, hhi, hidx⟩

theorem WorkerSys.reachable_inv {s : WorkerSys} (h : WorkerSys.Reachable s) :
    WorkerSys.Inv s := by
  induction h with
  | refl => exact WorkerSys.inv_init
  | tail _ hst ih => exact WorkerSys.inv_step hst ih

theorem WorkerSys.negLevel_reachable : WorkerSys.Reachable WorkerSys.negLevel := by
  have h1 : WStep WorkerSys.init WorkerSys.afterSend :=
    WStep.produceSend WorkerSys.init rfl rfl (by decide) rfl
  have h2 : WStep WorkerSys.afterSend WorkerSys.negLevel :=
    WStep.recv WorkerSys.afterSend 0 [] rfl rfl
  exact Relation.ReflTransGen.tail (Relation.ReflTransGen.tail Relation.ReflTransGen.refl h1) h2

/-- Claim C6 counterexample: a reachable state in which the level counter is
negative and differs from (chunks sent) - (chunks received): the consumer
received the chunk between the worker's send and its level increment. -/
theorem C6_counterexample :
    WorkerSys.Reachable WorkerSys.negLevel ∧
    WorkerSys.negLevel.level < 0 ∧
    WorkerSys.negLevel.level ≠
      (WorkerSys.negLevel.sent : Int) - WorkerSys.negLevel.received.length :=
  ⟨WorkerSys.negLevel_reachable, by decide, by decide⟩

/-- Claim C6 (amended): in every reachable state the level equals
(chunks sent) - (chunks received) - (1 if a successful send has not yet been
followed by its level increment), and stays within [-1, LEVEL_THRES]; a step
that produces a chunk requires the observed level below LEVEL_THRES and a
clear abort flag; a step that delivers a chunk decrements the level, and a
step that delivers nothing never decrements it. -/
theorem C6_backpressure_amended :
    (∀ s : WorkerSys, WorkerSys.Reachable s →
      s.level = (s.sent : Int) - s.received.length - (if s.pending then 1 else 0) ∧
      -1 ≤ s.level ∧ s.level ≤ DtStreamWorker.LEVEL_THRES) ∧
    (∀ s s2 : WorkerSys, WStep s s2 → s2.index = s.index + 1 →
      s.level < DtStreamWorker.LEVEL_THRES ∧ s.abort = false) ∧
    (∀ s s2 : WorkerSys, WStep s s2 →
      (s2.received.length = s.received.length + 1 → s2.level = s.level - 1) ∧
      (s2.received = s.received → s.level ≤ s2.level)) := by
  refine ⟨?_, ?_, ?_⟩
  · intro s hs
    obtain ⟨hl, _, _, _, _, _, hlo, hhi, _⟩ := WorkerSys.reachable_inv hs
    exact ⟨hl, hlo, hhi⟩
  · intro s s2 hst hix
    cases hst with
    | produceSend ha hpe hlv ho => exact ⟨hlv, ha⟩
    | produceFail ha hpe hlv ho => exact ⟨hlv, ha⟩
    | incrLevel hpe => simp at hix
    | sleepStep ha hpe hlv => simp at hix
    | recv c rest ho hqe => simp at hix
    | closeChannel ho => simp at hix
    | setAbort => simp at hix
  · intro s s2 hst
    cases hst with
    | produceSend ha hpe hlv ho => exact ⟨by intro h; simp at h, by intro h; simp⟩
    | produceFail ha hpe hlv ho => exact ⟨by intro h; simp at h, by intro h; simp⟩
    | incrLevel hpe =>
      exact ⟨by intro h; simp at h, by intro h; show s.level ≤ s.level + 1; omega⟩
    | sleepStep ha hpe hlv => exact ⟨by intro h; omega, by intro h; simp⟩
    | recv c rest ho hqe =>
      refine ⟨fun h => rfl, fun h => ?_⟩
      exfalso
      have h2 : s.received ++ [c] = s.received := h
      have h3 := congrArg List.length h2
      simp at h3
    | closeChannel ho => exact ⟨by intro h; simp at h, by intro h; simp⟩
    | setAbort => exact ⟨by intro h; simp at h, by intro h; simp⟩

/-- Witness for C6_backpressure_amended at the initial state. -/
theorem C6_backpressure_amended_witness :
    WorkerSys.init.level =
      (WorkerSys.init.sent : Int) - WorkerSys.init.received.length -
        (if WorkerSys.init.pending then 1 else 0) ∧
    -1 ≤ WorkerSys.init.level ∧ WorkerSys.init.level ≤ DtStreamWorker.LEVEL_THRES :=
  C6_backpressure_amended.1 WorkerSys.init Relation.ReflTransGen.refl

/-- Claim C5 counterexample: after the receiving end is gone, the worker
does not exit: a reachable state in which two further chunks were built
(index 2) after channel closure while nothing was ever sent. -/
theorem C5_counterexample :
    WorkerSys.Reachable WorkerSys.closedBusy ∧
    WorkerSys.closedBusy.channelOpen = false ∧
    WorkerSys.closedBusy.index = 2 ∧ WorkerSys.closedBusy.sent = 0 := by
  refine ⟨?_, rfl, rfl, rfl⟩
  have h1 : WStep WorkerSys.init ⟨false, false, 0, [], [], 0, false, 0⟩ :=
    WStep.closeChannel WorkerSys.init rfl
  have h2 : WStep ⟨false, false, 0, [], [], 0, false, 0⟩ ⟨false, false, 0, [], [], 1, false, 0⟩ :=
    WStep.produceFail _ rfl rfl (by decide) rfl
  have h3 : WStep ⟨false, false, 0, [], [], 1, false, 0⟩ WorkerSys.closedBusy :=
    WStep.produceFail _ rfl rfl (by decide) rfl
  exact Relation.ReflTransGen.tail
    (Relation.ReflTransGen.tail (Relation.ReflTransGen.tail Relation.ReflTransGen.refl h1) h2) h3

/-- Claim C5 (amended): when a send fails because the receiving end is gone,
the worker drops the chunk, skips the level increment, and keeps looping:
with the abort flag clear and the level below LEVEL_THRES it takes another
production step; only the abort flag stops it. -/
theorem C5_send_failure_continues (s : WorkerSys)
    (ha : s.abort = false) (hpe : s.pending = false)
    (ho : s.channelOpen = false) (hlv : s.level < DtStreamWorker.LEVEL_THRES) :
    WStep s { s with index := s.index + 1 } ∧
    ({ s with index := s.index + 1 } : WorkerSys).level = s.level ∧
    ({ s with index := s.index + 1 } : WorkerSys).sent = s.sent :=
  ⟨WStep.produceFail s ha hpe hlv ho, rfl, rfl⟩

/-- Witness for C5_send_failure_continues. -/
theorem C5_send_failure_continues_witness :
    WStep WorkerSys.closedBusy { WorkerSys.closedBusy with index := WorkerSys.closedBusy.index + 1 } ∧
    ({ WorkerSys.closedBusy with index := WorkerSys.closedBusy.index + 1 } : WorkerSys).level
      = WorkerSys.closedBusy.level ∧
    ({ WorkerSys.closedBusy with index := WorkerSys.closedBusy.index + 1 } : WorkerSys).sent
      = WorkerSys.closedBusy.sent :=
  C5_send_failure_continues WorkerSys.closedBusy rfl rfl rfl (by decide)

/-- Claim C8: in every reachable state, the chunks received from the channel
carry indices forming exactly 0, 1, 2, ... in delivery order, and while the
channel is open the received chunks followed by the queued chunks carry
exactly the indices 0, ..., sent-1 in order: no gap, duplicate or
reordering. -/
theorem C8_chunk_index_sequence (s : WorkerSys) (hs : WorkerSys.Reachable s) :
    s.received = List.range s.received.length ∧
    (s.channelOpen = true → s.received ++ s.queue = List.range s.sent) := by
  obtain ⟨_, hr, hq, hc, _, _, _, _, _⟩ := WorkerSys.reachable_inv hs
  refine ⟨hr, fun ho => ?_⟩
  have e1 : s.received ++ s.queue
      = List.range' 0 s.received.length ++ List.range' s.received.length s.queue.length := by
    rw [← List.range_eq_range', ← hr, ← hq ho]
  rw [e1]
  have e2 := List.range'_append_1 0 s.received.length s.queue.length
  rw [show 0 + s.received.length = s.received.length from by omega] at e2
  rw [e2, ← List.range_eq_range']
  have hcc := hc ho
  congr 1

/-- Witness for C8_chunk_index_sequence at a state with one delivered chunk. -/
theorem C8_chunk_index_sequence_witness :
    WorkerSys.negLevel.received = List.range WorkerSys.negLevel.received.length ∧
    (WorkerSys.negLevel.channelOpen = true →
      WorkerSys.negLevel.received ++ WorkerSys.negLevel.queue
        = List.range WorkerSys.negLevel.sent) :=
  C8_chunk_index_sequence WorkerSys.negLevel WorkerSys.negLevel_reachable

/-! ### DtStream handle state (src/stream.rs lines 84-171). -/

/-- Claim C10: a DtStream that is not active returns none from get_chunk:
a never-activated stream has no receiver and no join handle, and a stopped
stream fails the is_active test even though previously produced chunks may
still sit in the receiver queue, so buffered chunks are discarded, never
delivered. -/
theorem C10_inactive_get_chunk :
    (∀ s : DtStreamState, s.is_active = false → s.get_chunk = (none, s)) ∧
    (∀ s : DtStreamState, (s.stop.get_chunk = (none, s.stop)) ∧ s.stop.rx = s.rx) ∧
    DtStreamState.new.get_chunk = (none, DtStreamState.new) := by
  refine ⟨?_, ?_, rfl⟩
  · intro s h
    simp [DtStreamState.get_chunk, h]
  · intro s
    refine ⟨?_, rfl⟩
    simp [DtStreamState.get_chunk, DtStreamState.is_active, DtStreamState.stop]

/-- Witness for C10_inactive_get_chunk: a stopped stream with two chunks
still queued in its receiver delivers none. -/
theorem C10_inactive_get_chunk_witness :
    (DtStreamState.is_active ⟨false, false, some [7, 8], 2⟩ = false) ∧
    DtStreamState.get_chunk ⟨false, false, some [7, 8], 2⟩
      = (none, ⟨false, false, some [7, 8], 2⟩) :=
  ⟨by decide, C10_inactive_get_chunk.1 ⟨false, false, some [7, 8], 2⟩ (by decide)⟩

theorem fillChunk_length {σ : Type} (next : σ → List Nat × σ) (outsize : Nat)
    (hlen : ∀ s, ((next s).1).length = outsize) (n : Nat) (s : σ) :
    ((fillChunk next n s).1).length = n * outsize := by
  induction n generalizing s with
  | zero => simp [fillChunk]
  | succ n ih =>
    show ((next s).1 ++ (fillChunk next n (next s).2).1).length = (n + 1) * outsize
    rw [List.length_append, hlen, ih]
    ring

/-- Claim C3 counterexample: with the ChaCha20 generator's OUTSIZE, the
stream's hard-coded CHUNKSIZE formula gives 102400 * 10240 bytes and
10240 invocations of next(), not OUTSIZE * CHUNKFACTOR = 102400 * 64 bytes
from 64 invocations. -/
theorem C3_counterexample :
    DtStream.CHUNKSIZEof GeneratorChaCha20.OUTSIZE
      ≠ GeneratorChaCha20.OUTSIZE * GeneratorChaCha20.CHUNKFACTOR ∧
    DtStream.CHUNKSIZEof GeneratorChaCha20.OUTSIZE / GeneratorChaCha20.OUTSIZE
      ≠ GeneratorChaCha20.CHUNKFACTOR ∧
    DtStream.CHUNKSIZEof GeneratorChaCha20.OUTSIZE / GeneratorChaCha20.OUTSIZE = 10240 := by
  refine ⟨?_, ?_, ?_⟩ <;> decide

/-- Claim C3 (amended): every chunk a worker builds has payload exactly
CHUNKSIZE = OUTSIZE * (1024 * 10) bytes for the wrapped generator's output
size, built from CHUNKSIZE / OUTSIZE = 10240 invocations of next();
for the SHA-512 generator (the Hasher of this tree) this coincides with
OUTSIZE * CHUNKFACTOR = 64 * 10240, but the generator's CHUNKFACTOR
constant is not what the stream uses. -/
theorem C3_chunk_size_amended {σ : Type} (next : σ → List Nat × σ) (outsize : Nat)
    (h0 : 0 < outsize) (hlen : ∀ s, ((next s).1).length = outsize) (s : σ) :
    ((workerChunk next outsize s).1).length = DtStream.CHUNKSIZEof outsize ∧
    DtStream.CHUNKSIZEof outsize / outsize = 1024 * 10 ∧
    DtStream.CHUNKSIZE = GeneratorSHA512.OUTSIZE * GeneratorSHA512.CHUNKFACTOR := by
  have hdiv : DtStream.CHUNKSIZEof outsize / outsize = 1024 * 10 := by
    unfold DtStream.CHUNKSIZEof
    rw [Nat.mul_div_cancel_left _ h0]
  refine ⟨?_, hdiv, by decide⟩
  unfold workerChunk
  rw [fillChunk_length next outsize hlen, hdiv]
  unfold DtStream.CHUNKSIZEof
  ring

/-- Witness for C3_chunk_size_amended with a two-byte generator. -/
theorem C3_chunk_size_amended_witness :
    0 < 2 ∧
    ((workerChunk (fun s : Unit => ([0, 0], s)) 2 ()).1).length = DtStream.CHUNKSIZEof 2 ∧
    DtStream.CHUNKSIZEof 2 / 2 = 1024 * 10 ∧
    DtStream.CHUNKSIZE = GeneratorSHA512.OUTSIZE * GeneratorSHA512.CHUNKFACTOR :=
  ⟨by decide, C3_chunk_size_amended (fun s : Unit => ([0, 0], s)) 2 (by decide) (fun _ => rfl) ()⟩

theorem writeModeGo_first_err (dev : Nat → WriteResult) (syncOk : Bool)
    (wIdx bytesWritten bytesLeft : Nat) (hbl : ¬bytesLeft = 0)
    (e : WriteErrorKind) (he : dev wIdx = WriteResult.err e) :
    Disktest.writeModeGo dev syncOk wIdx bytesWritten bytesLeft
      = if syncOk then WriteOutcome.success bytesWritten else WriteOutcome.syncFailure := by
  rw [Disktest.writeModeGo]
  simp only [if_neg hbl, he]

/-- Claim C4, behavior of the code at the failing input: a first write that
fails with a non-ENOSPC I/O error is not fatal: write_mode syncs, reports 0
bytes written and returns success, exactly as in the no-space case. -/
theorem C4_write_error_swallowed :
    Disktest.write_mode (fun _ => WriteResult.err WriteErrorKind.other) true 1000000
      = WriteOutcome.success 0 ∧
    Disktest.write_mode (fun _ => WriteResult.err WriteErrorKind.noSpace) true 1000000
      = WriteOutcome.success 0 := by
  constructor <;>
  · rw [Disktest.write_mode, writeModeGo_first_err _ _ _ _ _ (by norm_num) _ rfl]
    rfl

/-! ### Determinism and seed derivation of the generators. -/

/-- Claim C1: both generators are deterministic: two instances constructed
from equal (non-empty) seed byte sequences produce byte-identical k-th
next() blocks for every k; in this embedding each generator's state, hence
its whole output sequence, is a pure function of the seed bytes. -/
theorem C1_generator_determinism (s1 s2 : List Nat) (heq : s1 = s2) (hne : s1 ≠ []) (k : Nat) :
    iterNext GeneratorChaCha20.next (GeneratorChaCha20.new s1) k
      = iterNext GeneratorChaCha20.next (GeneratorChaCha20.new s2) k ∧
    iterNext GeneratorSHA512.next (GeneratorSHA512.new s1) k
      = iterNext GeneratorSHA512.next (GeneratorSHA512.new s2) k := by
  rw [heq]
  exact ⟨rfl, rfl⟩

/-- Witness for C1_generator_determinism at seed [1,2,3], k = 0. -/
theorem C1_generator_determinism_witness :
    ([1, 2, 3] : List Nat) = [1, 2, 3] ∧ ([1, 2, 3] : List Nat) ≠ [] ∧
    (iterNext GeneratorChaCha20.next (GeneratorChaCha20.new [1, 2, 3]) 0
       = iterNext GeneratorChaCha20.next (GeneratorChaCha20.new [1, 2, 3]) 0 ∧
     iterNext GeneratorSHA512.next (GeneratorSHA512.new [1, 2, 3]) 0
       = iterNext GeneratorSHA512.next (GeneratorSHA512.new [1, 2, 3]) 0) :=
  ⟨rfl, by decide, C1_generator_determinism [1, 2, 3] [1, 2, 3] rfl (by decide) 0⟩

theorem dropReplicateZero (m n : Nat) :
    (List.replicate n (0 : Nat)).drop m = List.replicate (n - m) 0 := by
  induction m generalizing n with
  | zero => simp
  | succ m ih =>
    cases n with
    | zero => simp
    | succ n => simpa using ih n

theorem chachaBlocksFrom_flatten_length (key : List Nat) (n ctr : Nat) :
    (chachaBlocksFrom key ctr n).flatten.length = n * 64 := by
  induction n generalizing ctr with
  | zero => rfl
  | succ n ih =>
    show (chachaBlock key ctr :: chachaBlocksFrom key (ctr + 1) n).flatten.length = (n + 1) * 64
    rw [List.flatten_cons, List.length_append, chachaBlock_length, ih]
    ring

theorem iterNext_chacha (key : List Nat) (c k : Nat) :
    iterNext GeneratorChaCha20.next (⟨key, c⟩ : GeneratorChaCha20.State) k
      = (chachaBlocksFrom key (c + k * GeneratorChaCha20.BLOCKSPERNEXT)
          GeneratorChaCha20.BLOCKSPERNEXT).flatten := by
  induction k generalizing c with
  | zero =>
    show (chachaBlocksFrom key c GeneratorChaCha20.BLOCKSPERNEXT).flatten = _
    rw [show c + 0 * GeneratorChaCha20.BLOCKSPERNEXT = c from by omega]
  | succ k ih =>
    show iterNext GeneratorChaCha20.next
        (⟨key, c + GeneratorChaCha20.BLOCKSPERNEXT⟩ : GeneratorChaCha20.State) k = _
    rw [ih, show c + GeneratorChaCha20.BLOCKSPERNEXT + k * GeneratorChaCha20.BLOCKSPERNEXT
      = c + (k + 1) * GeneratorChaCha20.BLOCKSPERNEXT from by ring]

/-- Claim C7: GeneratorChaCha20::new derives its 32-byte cipher key by
copying the first min(32, seed length) seed bytes left-aligned into a
zero-initialized 32-byte buffer (zero-padded on the right, truncated when
longer), and every next() call returns exactly OUTSIZE = 102400 fresh
keystream bytes: call k returns the keystream blocks k*1600 .. k*1600+1599,
consecutive and disjoint from all earlier output. -/
theorem C7_chacha_seed_derivation (seed : List Nat) (hne : seed ≠ []) :
    (GeneratorChaCha20.new seed).key
      = seed.take (min 32 seed.length) ++ List.replicate (32 - min 32 seed.length) 0 ∧
    (GeneratorChaCha20.new seed).key.length = 32 ∧
    (∀ k, (iterNext GeneratorChaCha20.next (GeneratorChaCha20.new seed) k).length
      = GeneratorChaCha20.OUTSIZE) ∧
    (∀ k, iterNext GeneratorChaCha20.next (GeneratorChaCha20.new seed) k
      = (chachaBlocksFrom (GeneratorChaCha20.truncSeed seed)
          (k * GeneratorChaCha20.BLOCKSPERNEXT) GeneratorChaCha20.BLOCKSPERNEXT).flatten) := by
  have hkey : (GeneratorChaCha20.new seed).key
      = seed.take (min 32 seed.length) ++ List.replicate (32 - min 32 seed.length) 0 := by
    show GeneratorChaCha20.truncSeed seed = _
    unfold GeneratorChaCha20.truncSeed GeneratorChaCha20.copyInto
    rw [dropReplicateZero]
  refine ⟨hkey, ?_, ?_, ?_⟩
  · rw [hkey, List.length_append, List.length_take, List.length_replicate]
    omega
  · intro k
    have := iterNext_chacha (GeneratorChaCha20.truncSeed seed) 0 k
    rw [show (GeneratorChaCha20.new seed) = (⟨GeneratorChaCha20.truncSeed seed, 0⟩ :
        GeneratorChaCha20.State) from rfl, this,
      chachaBlocksFrom_flatten_length]
    rfl
  · intro k
    have := iterNext_chacha (GeneratorChaCha20.truncSeed seed) 0 k
    rw [show (GeneratorChaCha20.new seed) = (⟨GeneratorChaCha20.truncSeed seed, 0⟩ :
        GeneratorChaCha20.State) from rfl, this,
      show 0 + k * GeneratorChaCha20.BLOCKSPERNEXT = k * GeneratorChaCha20.BLOCKSPERNEXT
        from by omega]

/-- Witness for C7_chacha_seed_derivation at seed [1,2,3]. -/
theorem C7_chacha_seed_derivation_witness :
    ([1, 2, 3] : List Nat) ≠ [] ∧
    (GeneratorChaCha20.new [1, 2, 3]).key
      = ([1, 2, 3] : List Nat).take (min 32 ([1, 2, 3] : List Nat).length)
        ++ List.replicate (32 - min 32 ([1, 2, 3] : List Nat).length) 0 ∧
    (GeneratorChaCha20.new [1, 2, 3]).key.length = 32 :=
  ⟨by decide, (C7_chacha_seed_derivation [1, 2, 3] (by decide)).1,
   (C7_chacha_seed_derivation [1, 2, 3] (by decide)).2.1⟩

/- ======================================================================
   C9: the read/verify driver (Disktest::read_mode, src/main.rs:110-171).
   The device is modelled as a finite byte list D with regular-file read
   semantics: a read at position pos for m bytes returns the next
   min m (D.length - pos) bytes.  The pseudo-random stream is abstracted
   as a block sequence blocks : Nat -> List Nat (one OUTSIZE-byte list per
   hasher.next() call), of which the Hasher chain of section 3 is an
   instance. -/

theorem firstDiff_some_iff (as : List Nat) :
    ∀ (bs : List Nat) (p : Nat),
    (firstDiff as bs = some p ↔
      p < as.length ∧ p < bs.length ∧ as.getD p 0 ≠ bs.getD p 0 ∧
      ∀ q, q < p → as.getD q 0 = bs.getD q 0) := by
  induction as with
  | nil =>
    intro bs p
    constructor
    · intro h
      cases bs <;> simp [firstDiff] at h
    · intro ⟨h1, _, _, _⟩
      simp at h1
  | cons a as ih =>
    intro bs p
    cases bs with
    | nil =>
      constructor
      · intro h
        simp [firstDiff] at h
      · intro ⟨_, h2, _, _⟩
        simp at h2
    | cons b bs =>
      by_cases hab : a = b
      · constructor
        · intro h
          simp only [firstDiff, if_pos hab, Option.map_eq_some'] at h
          obtain ⟨p0, hp0, rfl⟩ := h
          obtain ⟨h1, h2, h3, h4⟩ := (ih bs p0).mp hp0
          refine ⟨by simpa using h1, by simpa using h2, by simpa using h3, ?_⟩
          intro q hq
          cases q with
          | zero => simpa using hab
          | succ q => simpa using h4 q (by omega)
        · intro ⟨h1, h2, h3, h4⟩
          cases p with
          | zero => simp at h3; exact absurd hab h3
          | succ p =>
            simp only [firstDiff, if_pos hab, Option.map_eq_some']
            refine ⟨p, (ih bs p).mpr ⟨by simpa using h1, by simpa using h2,
              by simpa using h3, ?_⟩, rfl⟩
            intro q hq
            have := h4 (q + 1) (by omega)
            simpa using this
      · constructor
        · intro h
          simp only [firstDiff, if_neg hab, Option.some_inj] at h
          subst h
          exact ⟨by simp, by simp, by simpa using hab, by intro q hq; omega⟩
        · intro ⟨h1, h2, h3, h4⟩
          cases p with
          | zero => simp [firstDiff, if_neg hab]
          | succ p =>
            have := h4 0 (by omega)
            simp at this
            exact absurd this hab

theorem firstDiff_none_iff (as : List Nat) :
    ∀ bs : List Nat,
    (firstDiff as bs = none ↔
      ∀ q, q < as.length → q < bs.length → as.getD q 0 = bs.getD q 0) := by
  induction as with
  | nil => intro bs; cases bs <;> simp [firstDiff]
  | cons a as ih =>
    intro bs
    cases bs with
    | nil => simp [firstDiff]
    | cons b bs =>
      by_cases hab : a = b
      · simp only [firstDiff, if_pos hab, Option.map_eq_none']
        rw [ih bs]
        constructor
        · intro h q hq1 hq2
          cases q with
          | zero => simpa using hab
          | succ q => simpa using h q (by simpa using hq1) (by simpa using hq2)
        · intro h q hq1 hq2
          have := h (q + 1) (by simpa using hq1) (by simpa using hq2)
          simpa using this
      · simp only [firstDiff, if_neg hab]
        constructor
        · intro h
          cases h
        · intro h
          have := h 0 (by simp) (by simp)
          simp at this
          exact absurd this hab

theorem getD_map_range (f : Nat → Nat) (N q : Nat) (h : q < N) :
    (List.map f (List.range N)).getD q 0 = f q := by
  rw [List.getD_eq_getElem?_getD, List.getElem?_map, List.getElem?_range h]
  rfl

theorem getD_take (l : List Nat) (m q : Nat) (h : q < m) :
    (l.take m).getD q 0 = l.getD q 0 := by
  rw [List.getD_eq_getElem?_getD, List.getD_eq_getElem?_getD, List.getElem?_take_of_lt h]

theorem getD_drop (l : List Nat) (b q : Nat) :
    (l.drop b).getD q 0 = l.getD (b + q) 0 := by
  rw [List.getD_eq_getElem?_getD, List.getD_eq_getElem?_getD, List.getElem?_drop]

theorem map_getD_range_self (l : List Nat) :
    List.map (fun q => l.getD q 0) (List.range l.length) = l := by
  induction l with
  | nil => rfl
  | cons a l ih =>
    rw [show (a :: l).length = l.length + 1 from rfl, List.range_succ_eq_map]
    simp only [List.map_cons, List.map_map]
    rw [show (a :: l).getD 0 0 = a from rfl]
    rw [show ((fun q => (a :: l).getD q 0) ∘ fun i => i + 1) = fun q => l.getD q 0 from rfl]
    rw [ih]

theorem streamChunk_eq (outsize : Nat) (blocks : Nat → List Nat) (h0 : 0 < outsize)
    (hlen : ∀ k, (blocks k).length = outsize) :
    ∀ (m s : Nat), (List.map blocks (List.range' s m)).flatten =
      List.map (fun q => streamByte outsize blocks (s * outsize + q))
        (List.range (m * outsize)) := by
  intro m
  induction m with
  | zero => intro s; simp
  | succ m ih =>
    intro s
    show (blocks s :: List.map blocks (List.range' (s + 1) m)).flatten = _
    rw [List.flatten_cons, ih (s + 1)]
    rw [show (m + 1) * outsize = outsize + m * outsize from by ring, List.range_add,
      List.map_append, List.map_map]
    congr 1
    · have e1 : List.map (fun q => streamByte outsize blocks (s * outsize + q))
          (List.range outsize) = List.map (fun q => (blocks s).getD q 0) (List.range outsize) := by
        apply List.map_congr_left
        intro q hq
        rw [List.mem_range] at hq
        unfold streamByte
        rw [show s * outsize + q = q + s * outsize from by ring]
        rw [Nat.add_mul_div_right _ _ h0, Nat.add_mul_mod_self_right,
          Nat.div_eq_of_lt hq, Nat.mod_eq_of_lt hq, Nat.zero_add]
      have e2 : List.map (fun q => (blocks s).getD q 0) (List.range outsize) = blocks s := by
        rw [← hlen s]
        exact map_getD_range_self (blocks s)
      exact (e1.trans e2).symm
    · apply List.map_congr_left
      intro q hq
      show streamByte outsize blocks ((s + 1) * outsize + q)
          = streamByte outsize blocks (s * outsize + (outsize + q))
      rw [show (s + 1) * outsize + q = s * outsize + (outsize + q) from by ring]
/-- Outcome of the read/verify driver: normal completion with the number of
bytes verified, or a data mismatch error carrying the absolute byte offset
(main.rs:136 bytes_read + i + j). -/

theorem readModeSpec_success (outsize : Nat) (blocks : Nat → List Nat) (D : List Nat)
    (maxBytes : Nat)
    (hall : ∀ p, p < min maxBytes D.length → D.getD p 0 = streamByte outsize blocks p) :
    Disktest.readModeSpec outsize blocks D maxBytes = ReadOutcome.success (min maxBytes D.length) := by
  unfold Disktest.readModeSpec
  have hnone : firstDiff (D.take (min maxBytes D.length))
      (List.map (streamByte outsize blocks) (List.range (min maxBytes D.length))) = none := by
    apply (firstDiff_none_iff _ _).mpr
    intro q hq1 hq2
    rw [List.length_take] at hq1
    have hqL : q < min maxBytes D.length := by omega
    rw [getD_take _ _ _ hqL, getD_map_range _ _ _ hqL]
    exact hall q hqL
  rw [hnone]

theorem readModeSpec_mismatch (outsize : Nat) (blocks : Nat → List Nat) (D : List Nat)
    (maxBytes g : Nat) (hg : g < min maxBytes D.length)
    (hd : D.getD g 0 ≠ streamByte outsize blocks g)
    (hb : ∀ p, p < g → D.getD p 0 = streamByte outsize blocks p) :
    Disktest.readModeSpec outsize blocks D maxBytes = ReadOutcome.mismatch g := by
  unfold Disktest.readModeSpec
  have hsome : firstDiff (D.take (min maxBytes D.length))
      (List.map (streamByte outsize blocks) (List.range (min maxBytes D.length))) = some g := by
    apply (firstDiff_some_iff _ _ _).mpr
    refine ⟨?_, ?_, ?_, ?_⟩
    · rw [List.length_take]
      omega
    · rw [List.length_map, List.length_range]
      exact hg
    · rw [getD_take _ _ _ hg, getD_map_range _ _ _ hg]
      exact hd
    · intro q hq
      rw [getD_take _ _ _ (by omega), getD_map_range _ _ _ (by omega)]
      exact hb q hq
  rw [hsome]

theorem readModeGo_eq_spec (outsize : Nat) (blocks : Nat → List Nat) (D : List Nat)
    (maxBytes : Nat) (h0 : 0 < outsize) (hlen : ∀ k, (blocks k).length = outsize) :
    ∀ (fuel sp br rl rc : Nat),
    D.length + 2 ≤ fuel + (br + rc) →
    br + rc ≤ D.length →
    rc ≤ rl →
    rl = min (Disktest.READBUFLENof outsize) (maxBytes - br) →
    br ≤ maxBytes →
    sp * outsize = br →
    (rc < rl ∨ rc = 0) →
    (∀ p, p < br → D.getD p 0 = streamByte outsize blocks p) →
    Disktest.readModeGo outsize blocks D fuel sp br (maxBytes - br) rl rc ((D.drop br).take rc)
      = some (Disktest.readModeSpec outsize blocks D maxBytes) := by
  intro fuel
  induction fuel with
  | zero =>
    intro sp br rl rc hfuel havail _ _ _ _ _ _
    exact absurd hfuel (by omega)
  | succ fuel ih =>
    intro sp br rl rc hfuel havail hcnt hrl hbr halign hstart hmatch
    simp only [Disktest.readModeGo]
    set n := min (rl - rc) (D.length - (br + rc)) with hn
    set rc2 := rc + n with hrc2
    have hrb : Disktest.READBUFLENof outsize = outsize * (1024 * 10) := rfl
    have hrbpos : 0 < Disktest.READBUFLENof outsize := by
      rw [hrb]
      exact Nat.mul_pos h0 (by norm_num)
    have havail2 : br + rc2 ≤ D.length := by omega
    have hrc2rl : rc2 ≤ rl := by omega
    have hbrrc2 : br + rc2 ≤ maxBytes := by omega
    have hdd : List.drop (br + rc) D = List.drop rc (List.drop br D) := by
      rw [List.drop_drop, Nat.add_comm]
    have hwin : List.take rc (List.drop br D) ++ List.take n (List.drop (br + rc) D)
        = List.take rc2 (List.drop br D) := by
      rw [hrc2, List.take_add, ← hdd]
    have hwlen : (List.take rc2 (List.drop br D)).length = rc2 := by
      rw [List.length_take, List.length_drop]
      omega
    by_cases htrig : rc2 = rl ∨ 0 < rc2 ∧ n = 0
    · rw [if_pos htrig]
      set nb := (rc2 + outsize - 1) / outsize with hnb
      have hceil : rc2 ≤ nb * outsize := by
        rcases Nat.eq_zero_or_pos rc2 with hz | hpos
        · rw [hz]
          exact Nat.zero_le _
        · rw [hnb, show rc2 + outsize - 1 = (rc2 - 1) + outsize from by omega,
            Nat.add_div_right _ h0]
          exact Nat.le_of_pred_lt ((Nat.div_lt_iff_lt_mul h0).mp
            (Nat.lt_succ_self ((rc2 - 1) / outsize)))
      have hexp : (List.map blocks (List.range' sp nb)).flatten
          = List.map (fun q => streamByte outsize blocks (br + q)) (List.range (nb * outsize)) := by
        rw [streamChunk_eq outsize blocks h0 hlen nb sp, halign]
      have hwget : ∀ q, q < rc2 → (List.take rc2 (List.drop br D)).getD q 0 = D.getD (br + q) 0 := by
        intro q hq
        rw [getD_take _ _ _ hq, getD_drop]
      have heget : ∀ q, q < nb * outsize →
          (List.map (fun q => streamByte outsize blocks (br + q))
            (List.range (nb * outsize))).getD q 0 = streamByte outsize blocks (br + q) := by
        intro q hq
        exact getD_map_range _ _ _ hq
      rw [hwin, hexp]
      cases hfd : firstDiff (List.take rc2 (List.drop br D))
          (List.map (fun q => streamByte outsize blocks (br + q)) (List.range (nb * outsize))) with
      | some p =>
        obtain ⟨hp1, hp2, hp3, hp4⟩ := (firstDiff_some_iff _ _ _).mp hfd
        rw [hwlen] at hp1
        rw [List.length_map, List.length_range] at hp2
        have hdiff : D.getD (br + p) 0 ≠ streamByte outsize blocks (br + p) := by
          rw [← hwget p hp1, ← heget p hp2]
          exact hp3
        have hagree : ∀ q, q < br + p → D.getD q 0 = streamByte outsize blocks q := by
          intro q hq
          rcases Nat.lt_or_ge q br with h | h
          · exact hmatch q h
          · have := hp4 (q - br) (by omega)
            rw [hwget _ (by omega), heget _ (by omega)] at this
            rw [show br + (q - br) = q from by omega] at this
            exact this
        show some (ReadOutcome.mismatch (br + p)) = _
        rw [readModeSpec_mismatch outsize blocks D maxBytes (br + p) (by omega) hdiff hagree]
      | none =>
        have hall2 := (firstDiff_none_iff _ _).mp hfd
        have hmatch2 : ∀ p, p < br + rc2 → D.getD p 0 = streamByte outsize blocks p := by
          intro p hp
          rcases Nat.lt_or_ge p br with h | h
          · exact hmatch p h
          · have := hall2 (p - br) (by rw [hwlen]; omega)
              (by rw [List.length_map, List.length_range]; omega)
            rw [hwget _ (by omega), heget _ (by omega)] at this
            rw [show br + (p - br) = p from by omega] at this
            exact this
        by_cases hbl0 : maxBytes - br - rc2 = 0
        · rw [if_pos hbl0]
          have hLval : min maxBytes D.length = br + rc2 := by omega
          show some (ReadOutcome.success (br + rc2)) = _
          rw [readModeSpec_success outsize blocks D maxBytes
            (fun p hp => hmatch2 p (by omega)), hLval]
        · rw [if_neg hbl0]
          by_cases hn0 : n = 0
          · rw [if_pos hn0]
            have hLval : min maxBytes D.length = br + rc2 := by
              rcases (by omega : rl = rc ∨ D.length = br + rc) with h | h
              · have hrc0 : rc = 0 := by omega
                omega
              · omega
            show some (ReadOutcome.success (br + rc2)) = _
            rw [readModeSpec_success outsize blocks D maxBytes
              (fun p hp => hmatch2 p (by omega)), hLval]
          · rw [if_neg hn0]
            have hrc2rleq : rc2 = rl := by
              rcases htrig with h | ⟨_, h⟩
              · exact h
              · exact absurd h hn0
            have hrlval : rl = Disktest.READBUFLENof outsize := by
              rcases Nat.le_total (Disktest.READBUFLENof outsize) (maxBytes - br) with hmb | hmb
              · rw [hrl]
                exact Nat.min_eq_left hmb
              · have : rl = maxBytes - br := by
                  rw [hrl]
                  exact Nat.min_eq_right hmb
                omega
            have hrc2v : rc2 = outsize * (1024 * 10) := by omega
            have hnbv : nb = 1024 * 10 + 0 := by
              rw [hnb, show rc2 + outsize - 1 = outsize * (1024 * 10) + (outsize - 1) from by omega,
                Nat.mul_add_div h0, Nat.div_eq_of_lt (by omega)]
            have hnbmul : nb * outsize = rc2 := by
              rw [hnbv]
              omega
            have halign2 : (sp + nb) * outsize = br + rc2 := by
              rw [Nat.add_mul, halign, hnbmul]
            have := ih (sp + nb) (br + rc2)
              (min (Disktest.READBUFLENof outsize) (maxBytes - (br + rc2))) 0
              (by omega) (by omega) (Nat.zero_le _) rfl hbrrc2 halign2 (Or.inr rfl)
              hmatch2
            rw [List.take_zero] at this
            rw [show maxBytes - br - rc2 = maxBytes - (br + rc2) from by omega]
            exact this
    · rw [if_neg htrig]
      push_neg at htrig
      by_cases hn0 : n = 0
      · rw [if_pos hn0]
        have hDbr : D.length = br := by
          have hrc0 : rc2 = 0 := by
            by_contra hne
            exact absurd hn0 (htrig.2 (by omega))
          rcases (by omega : rl = rc ∨ D.length = br + rc) with h | h
          · have : rc = 0 := by omega
            omega
          · omega
        have hLval : min maxBytes D.length = br := by omega
        show some (ReadOutcome.success br) = _
        rw [readModeSpec_success outsize blocks D maxBytes
          (fun p hp => hmatch p (by omega)), hLval]
      · rw [if_neg hn0]
        rw [hwin]
        exact ih sp br rl rc2 (by omega) havail2 hrc2rl hrl hbr halign
          (Or.inl (by omega)) hmatch

theorem read_mode_eq_spec (outsize : Nat) (blocks : Nat → List Nat) (D : List Nat)
    (maxBytes : Nat) (h0 : 0 < outsize) (hlen : ∀ k, (blocks k).length = outsize) :
    Disktest.read_mode outsize blocks D maxBytes = some (Disktest.readModeSpec outsize blocks D maxBytes) := by
  have := readModeGo_eq_spec outsize blocks D maxBytes h0 hlen (D.length + 2) 0 0
    (min (Disktest.READBUFLENof outsize) maxBytes) 0 (by omega) (by omega) (Nat.zero_le _)
    (by rw [Nat.sub_zero]) (Nat.zero_le _) (by rw [Nat.zero_mul]) (Or.inr rfl)
    (by intro p hp; omega)
  rw [List.take_zero, Nat.sub_zero] at this
  exact this

/-- C9: read_mode reports a mismatch error if and only if some byte of the
device differs from the corresponding byte of the regenerated pseudo-random
stream within the compared range (the first min maxBytes D.length bytes), and
the error carries the absolute offset of the FIRST differing byte (the
bytes_read + i + j of main.rs line 136): everything before it matches. -/
theorem C9_read_mode_mismatch_iff (outsize : Nat) (blocks : Nat → List Nat) (D : List Nat)
    (maxBytes o : Nat) (h0 : 0 < outsize) (hlen : ∀ k, (blocks k).length = outsize) :
    Disktest.read_mode outsize blocks D maxBytes = some (ReadOutcome.mismatch o) ↔
      (o < min maxBytes D.length ∧ D.getD o 0 ≠ streamByte outsize blocks o ∧
       ∀ p, p < o → D.getD p 0 = streamByte outsize blocks p) := by
  rw [read_mode_eq_spec outsize blocks D maxBytes h0 hlen]
  constructor
  · intro h
    unfold Disktest.readModeSpec at h
    cases hfd : firstDiff (D.take (min maxBytes D.length))
        (List.map (streamByte outsize blocks) (List.range (min maxBytes D.length))) with
    | none =>
      rw [hfd] at h
      simp at h
    | some g =>
      rw [hfd] at h
      simp only [Option.some_inj, ReadOutcome.mismatch.injEq] at h
      subst h
      obtain ⟨hp1, hp2, hp3, hp4⟩ := (firstDiff_some_iff _ _ _).mp hfd
      rw [List.length_take] at hp1
      rw [List.length_map, List.length_range] at hp2
      refine ⟨hp2, ?_, ?_⟩
      · rw [getD_take _ _ _ hp2, getD_map_range _ _ _ hp2] at hp3
        exact hp3
      · intro p hp
        have := hp4 p hp
        rw [getD_take _ _ _ (by omega), getD_map_range _ _ _ (by omega)] at this
        exact this
  · intro ⟨h1, h2, h3⟩
    rw [readModeSpec_mismatch outsize blocks D maxBytes o h1 h2 h3]

/-- Witness for C9_read_mode_mismatch_iff: a 4-byte device whose byte 3
disagrees with a two-byte-block generator stream. -/
theorem C9_read_mode_mismatch_iff_witness :
    (0 < 2 ∧ ∀ k : Nat, ([k % 256, 7] : List Nat).length = 2) ∧
    (Disktest.read_mode 2 (fun k => [k % 256, 7]) [0, 7, 1, 9] 10 = some (ReadOutcome.mismatch 3) ↔
      (3 < min 10 ([0, 7, 1, 9] : List Nat).length ∧
       ([0, 7, 1, 9] : List Nat).getD 3 0 ≠ streamByte 2 (fun k => [k % 256, 7]) 3 ∧
       ∀ p, p < 3 → ([0, 7, 1, 9] : List Nat).getD p 0 = streamByte 2 (fun k => [k % 256, 7]) p)) :=
  ⟨⟨by norm_num, fun k => rfl⟩,
    C9_read_mode_mismatch_iff 2 (fun k => [k % 256, 7]) [0, 7, 1, 9] 10 3 (by norm_num)
      (fun k => rfl)⟩

